import Mathlib

/-!
Verification of the NHL Elo pipeline (shift normalization, on-ice time
slicing, event attribution, matchup aggregation, and the Elo rating
engine) against its natural-language specification.

Every definition below is a shallow embedding of a concrete piece of the
Python source, with the source file and function noted next to it.
Integer clock values are modeled as `Int`, fractional midpoints and xG
values as `Rat`, and the floating-point Elo arithmetic as `Real`.
-/

/- ===================================================================
   Part 1. Interval Normalizer
   Source: src/02_processing/01_process_raw_shifts.py
   =================================================================== -/

/-- One raw shift-chart row, as read from the raw CSV.  Fields match the
columns used by 01_process_raw_shifts.py. -/
structure RawShiftRecord where
  gameId : Int
  playerId : Int
  period : Int
  typeCode : Int
  startTime : String
  endTime : String
  duration : String
  deriving DecidableEq, Repr

/-- One normalized shift, as written by 01_process_raw_shifts.py. -/
structure ProcessedShift where
  gameId : Int
  playerId : Int
  period : Int
  start_seconds_period : Int
  end_seconds_period : Int
  duration_seconds : Int
  absolute_start_seconds : Int
  absolute_end_seconds : Int
  deriving DecidableEq, Repr

/-- Character-level model of Python `str.split` on a colon. -/
def splitOnColon : List Char → List (List Char)
  | [] => [[]]
  | c :: rest =>
    let groups := splitOnColon rest
    if c = ':' then [] :: groups
    else
      match groups with
      | g :: gs => (c :: g) :: gs
      | [] => [[c]]

/-- Digit-string accumulator for the model of Python `int`. -/
def parseDigitsAux : List Char → Nat → Option Nat
  | [], acc => some acc
  | c :: cs, acc =>
    if c.isDigit then parseDigitsAux cs (10 * acc + (c.toNat - 48)) else none

/-- Model of Python `int` on a non-negative digit string: fails on the
empty string or any non-digit character. -/
def parseDigits : List Char → Option Nat
  | [] => none
  | cs => parseDigitsAux cs 0

/-- Model of Python `int` including an optional leading minus sign. -/
def parseIntChars : List Char → Option Int
  | c :: cs =>
    if c = '-' then (parseDigits cs).map (fun n => -(n : Int))
    else (parseDigits (c :: cs)).map (fun n => (n : Int))
  | [] => none

/-- Embedding of `parse_time_to_seconds` (01_process_raw_shifts.py,
lines 26-32): splits a clock string on a colon into minutes and seconds
and returns `m * 60 + s`, or `none` when the string is malformed. -/
def parse_time_to_seconds (time_str : String) : Option Int :=
  match splitOnColon time_str.toList with
  | [m, s] =>
    match parseIntChars m, parseIntChars s with
    | some mv, some sv => some (mv * 60 + sv)
    | _, _ => none
  | _ => none

/-- Embedding of the per-record work of `main` in 01_process_raw_shifts.py
(lines 52-92): a record survives exactly when its `typeCode` is 517 and
its duration, start and end clock strings all parse; absolute times add
the `(period - 1) * 1200` offset.  No overlap check of any kind is
performed. -/
def normalizeShift (r : RawShiftRecord) : Option ProcessedShift :=
  if r.typeCode = 517 then
    match parse_time_to_seconds r.duration, parse_time_to_seconds r.startTime,
          parse_time_to_seconds r.endTime with
    | some d, some st, some en =>
      some { gameId := r.gameId, playerId := r.playerId, period := r.period,
             start_seconds_period := st, end_seconds_period := en,
             duration_seconds := d,
             absolute_start_seconds := (r.period - 1) * 1200 + st,
             absolute_end_seconds := (r.period - 1) * 1200 + en }
    | _, _, _ => none
  else none

/-- The full per-file normalization pass of 01_process_raw_shifts.py. -/
def processRawShifts (rows : List RawShiftRecord) : List ProcessedShift :=
  rows.filterMap normalizeShift

/- ===================================================================
   Part 2. On-ice state reconstruction (time slicing)
   Source: src/02_processing/build_game_summaries.py (process_game_file),
   src/02_processing/build_matchup_summaries.py (process_game_for_matchups),
   src/02_processing/build_final_summaries.py (process_game_file).
   All three files share the identical slicing logic.
   =================================================================== -/

/-- One row of a processed per-game shift file, after the merge with the
player database: the merge adds a `position` column (`none` models a
player missing from the database, whom pandas keeps as a non-goalie). -/
structure GameShift where
  player_id : Int
  team : String
  period : Int
  start_seconds_period : Int
  end_seconds_period : Int
  absolute_start_seconds : Int
  absolute_end_seconds : Int
  position : Option String
  deriving DecidableEq, Repr

/-- The skater filter shared by all three processing scripts:
`game_shifts_df[game_shifts_df.position != G]`. -/
def skaterShifts (shifts : List GameShift) : List GameShift :=
  shifts.filter (fun s => s.position ≠ some "G")

/-- Lexicographic order on (period, seconds) pairs, the sort key of the
`all_times` frame. -/
def boundaryLt (x y : Int × Int) : Prop :=
  x.1 < y.1 ∨ (x.1 = y.1 ∧ x.2 < y.2)

instance : DecidablePred (fun p : (Int × Int) × (Int × Int) => boundaryLt p.1 p.2) :=
  fun p => by unfold boundaryLt; infer_instance

instance (x y : Int × Int) : Decidable (boundaryLt x y) := by
  unfold boundaryLt; infer_instance

/-- Insert a boundary into an already sorted, duplicate-free list,
keeping it sorted and duplicate-free. -/
def insertBoundary (x : Int × Int) : List (Int × Int) → List (Int × Int)
  | [] => [x]
  | y :: ys =>
    if x = y then y :: ys
    else if boundaryLt x y then x :: y :: ys
    else y :: insertBoundary x ys

/-- Embedding of the `all_times` construction (concat of start and end
boundaries, drop_duplicates, sort by (period, seconds)): the sorted,
duplicate-free list of all (period, boundary-second) pairs. -/
def sortedBoundaries (shifts : List GameShift) : List (Int × Int) :=
  ((shifts.map (fun s => (s.period, s.start_seconds_period))) ++
   (shifts.map (fun s => (s.period, s.end_seconds_period)))).foldr insertBoundary []

/-- Consecutive pairs of a list: the candidate slices are the pairs of
consecutive rows of `all_times`. -/
def consecutivePairs : List α → List (α × α)
  | a :: b :: rest => (a, b) :: consecutivePairs (b :: rest)
  | _ => []

/-- Embedding of the midpoint roster test shared by all three scripts:
shifts of the slice's period whose start is at or before the midpoint
and whose end is strictly after it. -/
def onIceAtMid (skater_shifts : List GameShift) (period : Int) (mid : ℚ) : List GameShift :=
  skater_shifts.filter (fun s =>
    s.period = period ∧ (s.start_seconds_period : ℚ) ≤ mid ∧ (s.end_seconds_period : ℚ) > mid)

/-- Duplicate-removing pass keeping first occurrences (used to model
`nunique` and `groupby` key extraction). -/
def dedupKeepFirst [DecidableEq α] (l : List α) : List α :=
  l.foldl (fun acc x => if x ∈ acc then acc else acc ++ [x]) []

/-- Embedding of `value_counts().idxmax()` on the team column: the team
code with the most shift records (first seen wins ties). -/
def homeTeamAbbrev (shifts : List GameShift) : String :=
  let teams := shifts.map (fun s => s.team)
  (dedupKeepFirst teams).foldl
    (fun best t => if teams.countP (fun u => u = t) > teams.countP (fun u => u = best) then t else best)
    (teams.headD "")

/- ===================================================================
   Part 3. 5v5 TOI slice emission
   Source: src/02_processing/build_game_summaries.py, lines 53-67.
   =================================================================== -/

/-- One per-slice TOI contribution record (`on_ice_toi_records`). -/
structure ToiRecord where
  game_id : Int
  player_id : Int
  duration_seconds : Int
  deriving DecidableEq, Repr

/-- Embedding of one iteration of the slicing loop of
build_game_summaries.process_game_file (lines 54-65): given the two
consecutive boundaries `b1 = (period, start_sec)` and
`b2 = (period2, end_sec)`, the loop skips the slice when the periods
differ or the duration is not positive, takes the midpoint roster, and
emits one TOI record per on-ice skater only when both the home and the
away roster have exactly 5 skaters. -/
def sliceToiRecords (gid : Int) (skater_shifts : List GameShift) (home : String)
    (b1 b2 : Int × Int) : List ToiRecord :=
  let duration := b2.2 - b1.2
  if b1.1 ≠ b2.1 ∨ duration ≤ 0 then []
  else
    let mid : ℚ := (b1.2 : ℚ) + (duration : ℚ) / 2
    let on_ice := onIceAtMid skater_shifts b1.1 mid
    if (on_ice.filter (fun s => s.team = home)).length = 5 ∧
       (on_ice.filter (fun s => s.team ≠ home)).length = 5 then
      on_ice.map (fun p => { game_id := gid, player_id := p.player_id, duration_seconds := duration })
    else []

/-- The whole slicing loop of build_game_summaries.process_game_file:
TOI records of every candidate slice of the game. -/
def gameToiRecords (gid : Int) (shifts : List GameShift) : List ToiRecord :=
  let skater_shifts := skaterShifts shifts
  let home := homeTeamAbbrev skater_shifts
  (consecutivePairs (sortedBoundaries skater_shifts)).flatMap
    (fun b => sliceToiRecords gid skater_shifts home b.1 b.2)

/-- Modelled from the claim wording (C2), for comparison with the code:
a slice qualifies iff its two boundaries lie in the same period, its
duration is positive, and each team has exactly 5 non-goalie skaters
whose shift covers the midpoint (start at or before it, end strictly
after it). -/
def sliceQualifiesSpec (skater_shifts : List GameShift) (home : String)
    (b1 b2 : Int × Int) : Prop :=
  let mid : ℚ := (b1.2 : ℚ) + ((b2.2 - b1.2 : Int) : ℚ) / 2
  b1.1 = b2.1 ∧ b1.2 < b2.2 ∧
  (skater_shifts.filter (fun s => s.team = home ∧ s.period = b1.1 ∧
    (s.start_seconds_period : ℚ) ≤ mid ∧ mid < (s.end_seconds_period : ℚ))).length = 5 ∧
  (skater_shifts.filter (fun s => s.team ≠ home ∧ s.period = b1.1 ∧
    (s.start_seconds_period : ℚ) ≤ mid ∧ mid < (s.end_seconds_period : ℚ))).length = 5

instance (skater_shifts : List GameShift) (home : String) (b1 b2 : Int × Int) :
    Decidable (sliceQualifiesSpec skater_shifts home b1 b2) := by
  unfold sliceQualifiesSpec; infer_instance

/- ===================================================================
   Part 4. Event attribution
   Source: src/02_processing/build_game_summaries.py, lines 69-84
   (identical logic in build_final_summaries.py, lines 81-94).
   =================================================================== -/

/-- One 5v5 shot event row from the play-by-play source. -/
structure ShotEvent where
  absolute_time_seconds : Int
  xGoal : ℚ
  teamCode : String
  deriving DecidableEq, Repr

/-- Embedding of `event_on_ice` (build_game_summaries.py line 75): all
shifts whose absolute interval satisfies `start < t` and `end >= t`.
Note the attribution uses the full shift frame, goalies included. -/
def eventOnIce (shifts : List GameShift) (t : Int) : List GameShift :=
  shifts.filter (fun s => s.absolute_start_seconds < t ∧ s.absolute_end_seconds ≥ t)

/-- Accumulation of one event into the per-player xG stats map
(pairs are (xg_for, xg_against), defaulting to (0, 0)). -/
def applyEvent (shifts : List GameShift) (stats : Int → ℚ × ℚ) (ev : ShotEvent) :
    Int → ℚ × ℚ :=
  (eventOnIce shifts ev.absolute_time_seconds).foldl
    (fun st player => fun pid =>
      if pid = player.player_id then
        if player.team = ev.teamCode then ((st player.player_id).1 + ev.xGoal, (st player.player_id).2)
        else ((st player.player_id).1, (st player.player_id).2 + ev.xGoal)
      else st pid)
    stats

/-- The whole xG attribution loop of build_game_summaries
(lines 71-81): fold all of the game's shot events over the stats map. -/
def gameXgStats (shifts : List GameShift) (events : List ShotEvent) : Int → ℚ × ℚ :=
  events.foldl (applyEvent shifts) (fun _ => (0, 0))

/- ===================================================================
   Part 5. Matchup aggregation
   Source: src/02_processing/build_matchup_summaries.py,
   process_game_for_matchups (lines 25-75) and main (lines 100-107).
   =================================================================== -/

/-- The relation tag of a matchup record. -/
inductive RelType where
  | teammate : RelType
  | opponent : RelType
  deriving DecidableEq, Repr

/-- One element of `matchup_records` as appended by
process_game_for_matchups (lines 66-73). -/
structure MatchupRecord where
  game_id : Int
  player_id : Int
  team : String
  other_id : Int
  duration : Int
  type : RelType
  deriving DecidableEq, Repr

/-- Embedding of the pair-emission loops of process_game_for_matchups
(lines 66-73): for every home skater `p1`, one opponent record in each
id order for every away skater `p2`, then, for every home skater `p2`
with `p1.id < p2.id`, one teammate record in each id order.  The away
team has no corresponding teammate loop. -/
def sliceMatchups (gid : Int) (dur : Int)
    (home_data away_data : List (Int × String)) : List MatchupRecord :=
  home_data.flatMap (fun p1 =>
    (away_data.flatMap (fun p2 =>
      [{ game_id := gid, player_id := p1.1, team := p1.2, other_id := p2.1,
         duration := dur, type := RelType.opponent },
       { game_id := gid, player_id := p2.1, team := p2.2, other_id := p1.1,
         duration := dur, type := RelType.opponent }])) ++
    (home_data.flatMap (fun p2 =>
      if p1.1 < p2.1 then
        [{ game_id := gid, player_id := p1.1, team := p1.2, other_id := p2.1,
           duration := dur, type := RelType.teammate },
         { game_id := gid, player_id := p2.1, team := p2.2, other_id := p1.1,
           duration := dur, type := RelType.teammate }]
      else [])))

/-- One iteration of the slicing loop of process_game_for_matchups
(lines 50-73): qualification test as in Part 3, then the pair emission. -/
def sliceMatchupRecords (gid : Int) (skater_shifts : List GameShift) (home : String)
    (b1 b2 : Int × Int) : List MatchupRecord :=
  let duration := b2.2 - b1.2
  if b1.1 ≠ b2.1 ∨ duration ≤ 0 then []
  else
    let mid : ℚ := (b1.2 : ℚ) + (duration : ℚ) / 2
    let on_ice := onIceAtMid skater_shifts b1.1 mid
    let home_players := on_ice.filter (fun s => s.team = home)
    let away_players := on_ice.filter (fun s => s.team ≠ home)
    if home_players.length = 5 ∧ away_players.length = 5 then
      sliceMatchups gid duration
        (home_players.map (fun s => (s.player_id, s.team)))
        (away_players.map (fun s => (s.player_id, s.team)))
    else []

/-- Embedding of process_game_for_matchups (lines 25-75): goalie filter,
empty-game and single-team guards, then the slice loop. -/
def process_game_for_matchups (gid : Int) (game_shifts : List GameShift) :
    List MatchupRecord :=
  let skater_shifts := skaterShifts game_shifts
  if skater_shifts.isEmpty then []
  else if (dedupKeepFirst (skater_shifts.map (fun s => s.team))).length < 2 then []
  else
    let home := homeTeamAbbrev skater_shifts
    (consecutivePairs (sortedBoundaries skater_shifts)).flatMap
      (fun b => sliceMatchupRecords gid skater_shifts home b.1 b.2)

/-- Embedding of the `groupby(...).sum()` of main (lines 106-107),
read back as a lookup: the total shared duration recorded in a game
under primary key `a` with partner `b` for relation `t`. -/
def relToi (recs : List MatchupRecord) (t : RelType) (g a b : Int) : Int :=
  ((recs.filter (fun r => r.type = t ∧ r.game_id = g ∧ r.player_id = a ∧ r.other_id = b)).map
    (fun r => r.duration)).sum

/- ===================================================================
   Part 6. Rating engine
   Source: src/03_analysis/run_elo_model.py and src/config.py.
   Floating-point arithmetic is modeled over the reals.
   =================================================================== -/

/-- config.py: INITIAL_ELO. -/
noncomputable def INITIAL_ELO : ℝ := 1500

/-- config.py: K_FACTOR. -/
noncomputable def K_FACTOR : ℝ := 20

/-- config.py: HOME_ICE_ADVANTAGE_ELO. -/
noncomputable def HOME_ICE_ADVANTAGE_ELO : ℝ := 35

/-- config.py: FORWARD_NORMALIZATION_TOI (minutes). -/
noncomputable def FORWARD_NORMALIZATION_TOI : ℝ := 15

/-- config.py: DEFENSEMAN_NORMALIZATION_TOI (minutes). -/
noncomputable def DEFENSEMAN_NORMALIZATION_TOI : ℝ := 20

/-- Embedding of calculate_expected_score (run_elo_model.py, lines 24-28). -/
noncomputable def calculate_expected_score (player_elo avg_teammate_elo avg_opponent_elo : ℝ)
    (is_home : Bool) : ℝ :=
  let home_ice_advantage : ℝ := if is_home then HOME_ICE_ADVANTAGE_ELO else 0
  let player_unit_strength : ℝ := 0.2 * player_elo + 0.8 * avg_teammate_elo
  let elo_diff : ℝ := player_unit_strength - avg_opponent_elo + home_ice_advantage
  1 / (1 + (10 : ℝ) ^ (-elo_diff / 400))

/-- Modelled from the claim wording (C5), for comparison with the code:
`expected = 1 / (1 + 10 ^ (-(unit_strength - avg_opponent_rating + home_bonus) / 400))`
with `unit_strength = 0.2 * player_rating + 0.8 * avg_teammate_rating` and
`home_bonus` the fixed home-advantage constant when the player's team is
the home team and 0 otherwise. -/
noncomputable def expectedScoreSpec (player_rating avg_teammate_rating avg_opponent_rating : ℝ)
    (is_home : Bool) : ℝ :=
  let unit_strength : ℝ := 0.2 * player_rating + 0.8 * avg_teammate_rating
  let home_bonus : ℝ := if is_home then HOME_ICE_ADVANTAGE_ELO else 0
  1 / (1 + (10 : ℝ) ^ (-(unit_strength - avg_opponent_rating + home_bonus) / 400))

/-- Embedding of update_elo (run_elo_model.py, lines 30-31). -/
noncomputable def update_elo (k actual_score expected_score : ℝ) : ℝ :=
  k * (actual_score - expected_score)

/-- Embedding of the uncapped actual score (run_elo_model.py, line 104):
`actual_score = 0.5 + game_xg_diff / 2.0`, with no clamping. -/
noncomputable def actualScore (game_xg_diff : ℝ) : ℝ :=
  0.5 + game_xg_diff / 2

/-- Embedding of np.average(values, weights): weighted mean. -/
noncomputable def npAverage (vw : List (ℝ × ℝ)) : ℝ :=
  ((vw.map (fun p => p.1 * p.2)).sum) / ((vw.map (fun p => p.2)).sum)

/-- One row of the per-game skater summary frame (`game_df`). -/
structure PlayerGameRow where
  player_id : Int
  team : String
  position : Option String
  toi_5v5_mins : ℝ
  game_xg_diff : ℝ

/-- One row of the teammate matchup table. -/
structure TeammateRow where
  game_id : Int
  player_id : Int
  teammate_id : Int
  shared_toi : ℝ

/-- One row of the opponent matchup table. -/
structure OpponentRow where
  game_id : Int
  player_id : Int
  opponent_id : Int
  shared_toi : ℝ

/-- Embedding of one iteration of the per-player loop of main
(run_elo_model.py, lines 84-111): `none` models the `continue` that
skips a player whose teammate rows, opponent rows or 5v5 ice time are
degenerate; otherwise the Elo change for this row. All ratings are read
from `elo_ratings`, the mapping as it stood before the game. -/
noncomputable def playerDelta (elo_ratings : Int → ℝ)
    (game_tm : List TeammateRow) (game_om : List OpponentRow)
    (home_team : Option String) (player_row : PlayerGameRow) : Option ℝ :=
  let teammates := game_tm.filter (fun r => r.player_id = player_row.player_id)
  let opponents := game_om.filter (fun r => r.player_id = player_row.player_id)
  if teammates.isEmpty ∨ opponents.isEmpty ∨ player_row.toi_5v5_mins ≤ 0 then none
  else
    let is_home : Bool := some player_row.team = home_team
    let avg_teammate_elo := npAverage (teammates.map (fun r => (elo_ratings r.teammate_id, r.shared_toi)))
    let avg_opponent_elo := npAverage (opponents.map (fun r => (elo_ratings r.opponent_id, r.shared_toi)))
    let expected_score := calculate_expected_score (elo_ratings player_row.player_id)
      avg_teammate_elo avg_opponent_elo is_home
    let actual_score := actualScore player_row.game_xg_diff
    let normalization_toi := if player_row.position = some "D"
      then DEFENSEMAN_NORMALIZATION_TOI else FORWARD_NORMALIZATION_TOI
    let num_games_played := player_row.toi_5v5_mins / normalization_toi
    some (update_elo (K_FACTOR * num_games_played) actual_score expected_score)

/-- `elo_changes.get(pid, 0) + elo_change` on a dict modeled as an
association list with unique keys in insertion order. -/
noncomputable def dictAdd : List (Int × ℝ) → Int → ℝ → List (Int × ℝ)
  | [], pid, d => [(pid, d)]
  | (k, v) :: rest, pid, d =>
    if k = pid then (k, v + d) :: rest else (k, v) :: dictAdd rest pid d

/-- The `elo_changes` dict built by the per-player loop of one game
(run_elo_model.py, lines 79-111). -/
noncomputable def eloChanges (elo_ratings : Int → ℝ)
    (game_tm : List TeammateRow) (game_om : List OpponentRow)
    (home_team : Option String) (rows : List PlayerGameRow) : List (Int × ℝ) :=
  rows.foldl
    (fun changes row =>
      match playerDelta elo_ratings game_tm game_om home_team row with
      | none => changes
      | some d => dictAdd changes row.player_id d)
    []

/-- The batch commit of lines 113-114: `elo_ratings[pid] += change` for
every entry of `elo_changes`. -/
noncomputable def applyChanges (ratings : Int → ℝ) (changes : List (Int × ℝ)) : Int → ℝ :=
  changes.foldl (fun r kv => fun p => if p = kv.1 then r p + kv.2 else r p) ratings

/-- Embedding of the whole per-game body of the rating loop
(run_elo_model.py, lines 78-114): filter the two matchup tables to the
game, evaluate every player against the pre-game ratings, then commit
all changes. -/
noncomputable def processGame (elo_ratings : Int → ℝ)
    (teammate_matchups : List TeammateRow) (opponent_matchups : List OpponentRow)
    (gid : Int) (home_team : Option String) (rows : List PlayerGameRow) : Int → ℝ :=
  let game_tm := teammate_matchups.filter (fun r => r.game_id = gid)
  let game_om := opponent_matchups.filter (fun r => r.game_id = gid)
  applyChanges elo_ratings (eloChanges elo_ratings game_tm game_om home_team rows)

/-- The per-player total game delta computed purely from the pre-game
ratings: the sum of the deltas of this player's rows of the game frame. -/
noncomputable def gameDeltaSum (elo_ratings : Int → ℝ)
    (game_tm : List TeammateRow) (game_om : List OpponentRow)
    (home_team : Option String) (rows : List PlayerGameRow) (p : Int) : ℝ :=
  ((rows.filter (fun row => row.player_id = p)).filterMap
    (playerDelta elo_ratings game_tm game_om home_team)).sum

/- ===================================================================
   Part 7. Season output and traded players
   Source: src/03_analysis/run_elo_model.py, lines 119-140.
   =================================================================== -/

/-- One row of `per_team_stats`: a (player, team) season aggregate. -/
structure TeamStat where
  player_id : Int
  team : String
  games_played : Nat
  total_toi_mins : ℚ
  season_xg_for : ℚ
  season_xg_against : ℚ
  deriving DecidableEq, Repr

/-- Embedding of `duplicated(subset=player_id, keep=False)` selection
(line 131): the rows of players appearing under at least two rows. -/
def tradedRows (stats : List TeamStat) : List TeamStat :=
  stats.filter (fun r => 2 ≤ stats.countP (fun s => s.player_id = r.player_id))

/-- Embedding of `single_team_stats` (line 132): rows of players with a
single row. -/
def singleTeamStats (stats : List TeamStat) : List TeamStat :=
  stats.filter (fun r => stats.countP (fun s => s.player_id = r.player_id) < 2)

/-- The summed row the groupby-agg of lines 133-139 produces for one
traded player: every numeric field summed over the player's rows, team
set to TOT. -/
def sumStatsFor (rows : List TeamStat) (p : Int) : TeamStat :=
  let mine := rows.filter (fun r => r.player_id = p)
  { player_id := p, team := "TOT",
    games_played := (mine.map (fun r => r.games_played)).sum,
    total_toi_mins := (mine.map (fun r => r.total_toi_mins)).sum,
    season_xg_for := (mine.map (fun r => r.season_xg_for)).sum,
    season_xg_against := (mine.map (fun r => r.season_xg_against)).sum }

/-- Embedding of `total_stats` (lines 133-139): one TOT row per traded
player. -/
def totalStats (traded : List TeamStat) : List TeamStat :=
  (dedupKeepFirst (traded.map (fun r => r.player_id))).map (sumStatsFor traded)

/-- Embedding of `final_summary = pd.concat([single_team_stats, total_stats])`
(line 140). -/
def finalSummaryStats (stats : List TeamStat) : List TeamStat :=
  singleTeamStats stats ++ totalStats (tradedRows stats)

/- ===================================================================
   Part 8. Concrete sample inputs used by witnesses and counterexamples
   =================================================================== -/

/-- Two raw 517 shift rows of the same player whose intervals
[0, 100) and [50, 150) overlap. -/
def sampleRawShifts : List RawShiftRecord :=
  [{ gameId := 2023020001, playerId := 1, period := 1, typeCode := 517,
     startTime := "0:00", endTime := "1:40", duration := "1:40" },
   { gameId := 2023020001, playerId := 1, period := 1, typeCode := 517,
     startTime := "0:50", endTime := "2:30", duration := "1:40" }]

/-- Shorthand for a skater shift of period 1 used by the sample game. -/
def mkSkaterShift (pid : Int) (team : String) (s e : Int) : GameShift :=
  { player_id := pid, team := team, period := 1,
    start_seconds_period := s, end_seconds_period := e,
    absolute_start_seconds := s, absolute_end_seconds := e,
    position := some "C" }

/-- A game with one qualifying 5v5 slice [0, 60): home skaters 1-5,
away skaters 6-10, plus a lone home shift [60, 120) that makes the
home team the strict majority of shift rows. -/
def sampleGame : List GameShift :=
  [mkSkaterShift 1 "H" 0 60, mkSkaterShift 2 "H" 0 60, mkSkaterShift 3 "H" 0 60,
   mkSkaterShift 4 "H" 0 60, mkSkaterShift 5 "H" 0 60,
   mkSkaterShift 6 "A" 0 60, mkSkaterShift 7 "A" 0 60, mkSkaterShift 8 "A" 0 60,
   mkSkaterShift 9 "A" 0 60, mkSkaterShift 10 "A" 0 60,
   mkSkaterShift 11 "H" 60 120]

/-- A season aggregate table where player 1 appears under two team
codes (a traded player) and player 2 under one. -/
def sampleStats : List TeamStat :=
  [{ player_id := 1, team := "A", games_played := 10, total_toi_mins := 100,
     season_xg_for := 5, season_xg_against := 3 },
   { player_id := 1, team := "B", games_played := 8, total_toi_mins := 80,
     season_xg_for := 4, season_xg_against := 2 },
   { player_id := 2, team := "C", games_played := 5, total_toi_mins := 50,
     season_xg_for := 1, season_xg_against := 1 }]

/-- A shift whose absolute interval is [10, 20). -/
def shiftTenTwenty : GameShift :=
  { player_id := 1, team := "H", period := 1,
    start_seconds_period := 10, end_seconds_period := 20,
    absolute_start_seconds := 10, absolute_end_seconds := 20,
    position := some "C" }

/-- A skater row with zero 5v5 ice time, for the degenerate-skip witness. -/
noncomputable def sampleZeroToiRow : PlayerGameRow :=
  { player_id := 1, team := "H", position := none, toi_5v5_mins := 0, game_xg_diff := 0 }

/-- The per-entry total of an elo_changes association list at one key. -/
noncomputable def changeOf (changes : List (Int × ℝ)) (p : Int) : ℝ :=
  ((changes.filter (fun kv => kv.1 = p)).map (fun kv => kv.2)).sum

/- ===================================================================
   Theorems
   =================================================================== -/

/-- C9 counterexample: the Interval Normalizer keeps two overlapping
shifts of the same player in the same game, so the claimed behavior
(dropping the offending shift) does not hold. -/
theorem C9_overlap_counterexample :
    ∃ s1 ∈ processRawShifts sampleRawShifts, ∃ s2 ∈ processRawShifts sampleRawShifts,
      s1 ≠ s2 ∧ s1.playerId = s2.playerId ∧ s1.gameId = s2.gameId ∧
      s1.absolute_start_seconds < s2.absolute_end_seconds ∧
      s2.absolute_start_seconds < s1.absolute_end_seconds := by decide

/-- C9 (amended): the Interval Normalizer performs no overlap handling
at all: every raw record whose activity type is 517 and whose duration,
start and end clock strings parse appears in the normalized output,
even when its interval overlaps another shift of the same player. -/
theorem C9_kept_regardless_of_overlap (rows : List RawShiftRecord) (r : RawShiftRecord)
    (hmem : r ∈ rows) (htype : r.typeCode = 517) (d st en : Int)
    (hd : parse_time_to_seconds r.duration = some d)
    (hst : parse_time_to_seconds r.startTime = some st)
    (hen : parse_time_to_seconds r.endTime = some en) :
    ({ gameId := r.gameId, playerId := r.playerId, period := r.period,
       start_seconds_period := st, end_seconds_period := en, duration_seconds := d,
       absolute_start_seconds := (r.period - 1) * 1200 + st,
       absolute_end_seconds := (r.period - 1) * 1200 + en } : ProcessedShift) ∈
      processRawShifts rows := by
  apply List.mem_filterMap.mpr
  exact ⟨r, hmem, by simp [normalizeShift, htype, hd, hst, hen]⟩

/-- C9 witness: the second of the two overlapping sample shifts is
normalized and kept. -/
theorem C9_kept_regardless_of_overlap_witness :
    ({ gameId := 2023020001, playerId := 1, period := 1,
       start_seconds_period := 50, end_seconds_period := 150, duration_seconds := 100,
       absolute_start_seconds := 50, absolute_end_seconds := 150 } : ProcessedShift) ∈
      processRawShifts sampleRawShifts :=
  C9_kept_regardless_of_overlap sampleRawShifts
    { gameId := 2023020001, playerId := 1, period := 1, typeCode := 517,
      startTime := "0:50", endTime := "2:30", duration := "1:40" }
    (by decide) rfl 100 50 150 rfl rfl rfl

/-- C3: event attribution uses the boundary rule start < t and t <= end
on the absolute shift interval; a shift [10, 20) is credited for an
event at exactly t = 20 and is not credited for an event at exactly
t = 10. -/
theorem C3_event_attribution_boundary :
    (∀ (shifts : List GameShift) (t : Int) (s : GameShift),
      s ∈ eventOnIce shifts t ↔
        s ∈ shifts ∧ s.absolute_start_seconds < t ∧ t ≤ s.absolute_end_seconds) ∧
    gameXgStats [shiftTenTwenty] [{ absolute_time_seconds := 20, xGoal := 1/2, teamCode := "H" }] 1
      = (1/2, 0) ∧
    gameXgStats [shiftTenTwenty] [{ absolute_time_seconds := 10, xGoal := 1/2, teamCode := "H" }] 1
      = (0, 0) := by
  refine ⟨?_, ?_, ?_⟩
  · intro shifts t s
    simp [eventOnIce, List.mem_filter, ge_iff_le]
  · norm_num [gameXgStats, applyEvent, eventOnIce, shiftTenTwenty, List.filter]
  · norm_num [gameXgStats, applyEvent, eventOnIce, shiftTenTwenty, List.filter]

/-- C6: the active actual-score variant is the uncapped one,
actual = 0.5 + 0.5 * (xg_for - xg_against) / N with N = 1 and no
clamping: any xG differential above N puts the actual score above 1. -/
theorem C6_uncapped_actual :
    (∀ game_xg_for game_xg_against : ℝ,
      actualScore (game_xg_for - game_xg_against) =
        0.5 + 0.5 * (game_xg_for - game_xg_against) / 1) ∧
    (∀ d : ℝ, 1 < d → 1 < actualScore d) := by
  constructor
  · intro f a; unfold actualScore; ring
  · intro d hd; unfold actualScore; linarith

/-- C6 witness: an xG differential of 2 yields an actual score above 1. -/
theorem C6_uncapped_actual_witness : 1 < actualScore 2 :=
  C6_uncapped_actual.2 2 (by norm_num)

/-- C5: the expected score is exactly the logistic formula of the claim,
with unit strength 0.2 * player + 0.8 * teammates and the fixed home
bonus applied only at home; at equal ratings away it evaluates to 1/2. -/
theorem C5_expected_score_formula :
    (∀ (p t o : ℝ) (h : Bool),
      calculate_expected_score p t o h = expectedScoreSpec p t o h) ∧
    (∀ r : ℝ, calculate_expected_score r r r false = 1 / 2) := by
  constructor
  · intro p t o h; rfl
  · intro r
    unfold calculate_expected_score
    have h1 : (0.2 * r + 0.8 * r - r + (if (false : Bool) then HOME_ICE_ADVANTAGE_ELO else 0) : ℝ) = 0 := by
      simp; ring
    simp only [h1]
    norm_num [Real.rpow_zero]

/-- Bridges the nested filter of the code to the single filter of the
claim-worded qualification predicate. -/
theorem onIce_filter_length (sk : List GameShift) (p : Int) (mid : ℚ)
    (q : GameShift → Prop) [DecidablePred q] :
    ((onIceAtMid sk p mid).filter (fun s => q s)).length =
      (sk.filter (fun s => q s ∧ s.period = p ∧
        (s.start_seconds_period : ℚ) ≤ mid ∧ mid < (s.end_seconds_period : ℚ))).length := by
  unfold onIceAtMid
  rw [List.filter_filter]
  apply congrArg List.length
  apply List.filter_congr
  intro s _
  by_cases hq : q s <;> simp [hq]

/-- C2: a candidate slice contributes TOI records iff its boundaries are
in the same period, its duration is positive, and each side has exactly
5 non-goalie skaters covering the midpoint (start at or before it, end
strictly after it). -/
theorem C2_slice_inclusion_iff (gid : Int) (shifts : List GameShift)
    (b1 b2 : Int × Int)
    (hcand : (b1, b2) ∈ consecutivePairs (sortedBoundaries (skaterShifts shifts))) :
    sliceToiRecords gid (skaterShifts shifts) (homeTeamAbbrev (skaterShifts shifts)) b1 b2 ≠ [] ↔
      sliceQualifiesSpec (skaterShifts shifts) (homeTeamAbbrev (skaterShifts shifts)) b1 b2 := by
  clear hcand
  generalize (skaterShifts shifts) = sk
  generalize (homeTeamAbbrev sk) = home
  unfold sliceToiRecords sliceQualifiesSpec
  by_cases h1 : b1.1 = b2.1
  · by_cases h2 : b2.2 - b1.2 ≤ 0
    · rw [if_pos (Or.inr h2)]
      simp only [ne_eq, not_true_eq_false, false_iff, not_and]
      intro _ hlt
      omega
    · rw [if_neg (by push_neg; exact ⟨h1, by omega⟩)]
      by_cases h5 :
          ((onIceAtMid sk b1.1 ((b1.2 : ℚ) + ((b2.2 - b1.2 : Int) : ℚ) / 2)).filter
            (fun s => s.team = home)).length = 5 ∧
          ((onIceAtMid sk b1.1 ((b1.2 : ℚ) + ((b2.2 - b1.2 : Int) : ℚ) / 2)).filter
            (fun s => s.team ≠ home)).length = 5
      · rw [if_pos h5]
        constructor
        · intro _
          refine ⟨h1, by omega, ?_, ?_⟩
          · rw [← onIce_filter_length sk b1.1 _ (fun s => s.team = home)]; exact h5.1
          · rw [← onIce_filter_length sk b1.1 _ (fun s => s.team ≠ home)]; exact h5.2
        · intro _
          have hlen : ((onIceAtMid sk b1.1 ((b1.2 : ℚ) + ((b2.2 - b1.2 : Int) : ℚ) / 2)).filter
              (fun s => s.team = home)).length = 5 := h5.1
          intro hnil
          rw [List.map_eq_nil_iff] at hnil
          rw [hnil] at hlen
          simp at hlen
      · rw [if_neg h5]
        simp only [ne_eq, not_true_eq_false, false_iff, not_and]
        intro _ _ hh
        intro ha
        apply h5
        constructor
        · rw [onIce_filter_length sk b1.1 _ (fun s => s.team = home)]; exact hh
        · rw [onIce_filter_length sk b1.1 _ (fun s => s.team ≠ home)]; exact ha
  · rw [if_pos (Or.inl h1)]
    simp only [ne_eq, not_true_eq_false, false_iff, not_and]
    intro hc
    exact absurd hc h1

/-- C2 witness: the inclusion test instantiated on the qualifying
candidate slice [0, 60) of the sample game. -/
theorem C2_slice_inclusion_iff_witness :
    (sliceToiRecords 1 (skaterShifts sampleGame) (homeTeamAbbrev (skaterShifts sampleGame))
        (1, 0) (1, 60) ≠ [] ↔
      sliceQualifiesSpec (skaterShifts sampleGame) (homeTeamAbbrev (skaterShifts sampleGame))
        (1, 0) (1, 60)) :=
  C2_slice_inclusion_iff 1 sampleGame (1, 0) (1, 60) (by decide)

theorem dedupKeepFirst_aux_mem [DecidableEq α] (l : List α) :
    ∀ (acc : List α) (a : α),
      (a ∈ l.foldl (fun acc x => if x ∈ acc then acc else acc ++ [x]) acc) ↔
        a ∈ acc ∨ a ∈ l := by
  induction l with
  | nil => simp
  | cons x xs ih =>
    intro acc a
    simp only [List.foldl_cons]
    rw [ih]
    by_cases hx : x ∈ acc
    · simp only [if_pos hx, List.mem_cons]
      constructor
      · rintro (h | h)
        · exact Or.inl h
        · exact Or.inr (Or.inr h)
      · rintro (h | rfl | h)
        · exact Or.inl h
        · exact Or.inl hx
        · exact Or.inr h
    · simp only [if_neg hx, List.mem_append, List.mem_singleton, List.mem_cons, or_assoc,
        List.not_mem_nil, false_or, or_false]

theorem dedupKeepFirst_mem [DecidableEq α] (l : List α) (a : α) :
    a ∈ dedupKeepFirst l ↔ a ∈ l := by
  unfold dedupKeepFirst
  rw [dedupKeepFirst_aux_mem]
  simp

theorem dedupKeepFirst_aux_nodup [DecidableEq α] (l : List α) :
    ∀ acc : List α, acc.Nodup →
      (l.foldl (fun acc x => if x ∈ acc then acc else acc ++ [x]) acc).Nodup := by
  induction l with
  | nil => intro acc h; simpa using h
  | cons x xs ih =>
    intro acc hacc
    simp only [List.foldl_cons]
    by_cases hx : x ∈ acc
    · rw [if_pos hx]; exact ih acc hacc
    · rw [if_neg hx]
      apply ih
      simp [List.nodup_append, hacc, hx]

theorem dedupKeepFirst_nodup [DecidableEq α] (l : List α) : (dedupKeepFirst l).Nodup := by
  unfold dedupKeepFirst
  exact dedupKeepFirst_aux_nodup l [] (by simp)

theorem nodup_filter_eq_singleton [DecidableEq α] (l : List α) (p : α)
    (hn : l.Nodup) (hm : p ∈ l) : l.filter (fun x => x = p) = [p] := by
  induction l with
  | nil => simp at hm
  | cons a as ih =>
    rcases List.nodup_cons.mp hn with ⟨hna, hnas⟩
    rcases List.mem_cons.mp hm with rfl | hmem
    · rw [List.filter_cons_of_pos (by simp)]
      have hrest : List.filter (fun x => decide (x = p)) as = [] := by
        apply List.filter_eq_nil_iff.mpr
        intro b hb hbp
        rw [decide_eq_true_eq] at hbp
        subst hbp
        exact hna hb
      rw [hrest]
    · rw [List.filter_cons_of_neg (by simp; rintro rfl; exact hna hmem)]
      exact ih hnas hmem

/-- C8 (amended): every player appearing under more than one team code
gets exactly one combined TOT row whose games played, ice time and xG
fields are the sums of the per-team rows, and that row replaces the
per-team rows, which are removed from the final output. -/
theorem C8_traded_total_row (stats : List TeamStat) (p : Int)
    (h : 2 ≤ stats.countP (fun r => r.player_id = p)) :
    (finalSummaryStats stats).filter (fun r => r.player_id = p) =
      [{ player_id := p, team := "TOT",
         games_played := ((stats.filter (fun r => r.player_id = p)).map (fun r => r.games_played)).sum,
         total_toi_mins := ((stats.filter (fun r => r.player_id = p)).map (fun r => r.total_toi_mins)).sum,
         season_xg_for := ((stats.filter (fun r => r.player_id = p)).map (fun r => r.season_xg_for)).sum,
         season_xg_against := ((stats.filter (fun r => r.player_id = p)).map (fun r => r.season_xg_against)).sum }] := by
  have hfilter_traded : (tradedRows stats).filter (fun r => r.player_id = p) =
      stats.filter (fun r => r.player_id = p) := by
    unfold tradedRows
    rw [List.filter_filter]
    apply List.filter_congr
    intro r _
    by_cases hq : r.player_id = p
    · rw [hq]; simp [h]
    · simp [hq]
  unfold finalSummaryStats
  rw [List.filter_append]
  have hsingle : (singleTeamStats stats).filter (fun r => r.player_id = p) = [] := by
    apply List.filter_eq_nil_iff.mpr
    intro r hr hrp
    rw [decide_eq_true_eq] at hrp
    unfold singleTeamStats at hr
    rcases List.mem_filter.mp hr with ⟨_, hcond⟩
    rw [decide_eq_true_eq, hrp] at hcond
    omega
  rw [hsingle, List.nil_append]
  unfold totalStats
  have hpmem : p ∈ (tradedRows stats).map (fun r => r.player_id) := by
    have hpos : 0 < stats.countP (fun r => decide (r.player_id = p)) := by omega
    rcases List.countP_pos_iff.mp hpos with ⟨r, hr, hrp⟩
    rw [decide_eq_true_eq] at hrp
    apply List.mem_map.mpr
    refine ⟨r, ?_, hrp⟩
    apply List.mem_filter.mpr
    refine ⟨hr, ?_⟩
    rw [decide_eq_true_eq, hrp]
    exact h
  have hfm : (List.map (sumStatsFor (tradedRows stats))
        (dedupKeepFirst (List.map (fun r => r.player_id) (tradedRows stats)))).filter
        (fun r => r.player_id = p) =
      List.map (sumStatsFor (tradedRows stats))
        ((dedupKeepFirst (List.map (fun r => r.player_id) (tradedRows stats))).filter
          (fun x => x = p)) := by
    rw [List.filter_map]
    rfl
  rw [hfm]
  rw [nodup_filter_eq_singleton _ p (dedupKeepFirst_nodup _)
    ((dedupKeepFirst_mem _ p).mpr hpmem)]
  simp only [List.map_cons, List.map_nil]
  congr 1
  unfold sumStatsFor
  rw [hfilter_traded]

theorem relToi_nil (t : RelType) (g a b : Int) : relToi [] t g a b = 0 := rfl

theorem relToi_cons (r : MatchupRecord) (rest : List MatchupRecord) (t : RelType) (g a b : Int) :
    relToi (r :: rest) t g a b =
      (if r.type = t ∧ r.game_id = g ∧ r.player_id = a ∧ r.other_id = b then r.duration else 0) +
        relToi rest t g a b := by
  unfold relToi
  rw [List.filter_cons]
  by_cases hc : r.type = t ∧ r.game_id = g ∧ r.player_id = a ∧ r.other_id = b
  · simp [hc]
  · simp [hc]

theorem relToi_append (l1 l2 : List MatchupRecord) (t : RelType) (g a b : Int) :
    relToi (l1 ++ l2) t g a b = relToi l1 t g a b + relToi l2 t g a b := by
  unfold relToi
  rw [List.filter_append, List.map_append, List.sum_append]

theorem relToi_flatMap {α : Type} (L : List α) (f : α → List MatchupRecord)
    (t : RelType) (g a b : Int) :
    relToi (L.flatMap f) t g a b = (L.map (fun x => relToi (f x) t g a b)).sum := by
  induction L with
  | nil => simp [relToi]
  | cons x xs ih =>
    rw [List.flatMap_cons, relToi_append, ih, List.map_cons, List.sum_cons]

theorem sliceMatchups_relToi_symm (gid dur : Int) (home_data away_data : List (Int × String))
    (t : RelType) (g a b : Int) :
    relToi (sliceMatchups gid dur home_data away_data) t g a b =
      relToi (sliceMatchups gid dur home_data away_data) t g b a := by
  unfold sliceMatchups
  rw [relToi_flatMap, relToi_flatMap]
  congr 1
  apply List.map_congr_left
  intro p1 _
  rw [relToi_append, relToi_append]
  congr 1
  · rw [relToi_flatMap, relToi_flatMap]
    congr 1
    apply List.map_congr_left
    intro p2 _
    rw [relToi_cons, relToi_cons, relToi_nil, relToi_cons, relToi_cons, relToi_nil]
    have e1 : (RelType.opponent = t ∧ gid = g ∧ p1.1 = b ∧ p2.1 = a) ↔
        (RelType.opponent = t ∧ gid = g ∧ p2.1 = a ∧ p1.1 = b) := by tauto
    have e2 : (RelType.opponent = t ∧ gid = g ∧ p2.1 = b ∧ p1.1 = a) ↔
        (RelType.opponent = t ∧ gid = g ∧ p1.1 = a ∧ p2.1 = b) := by tauto
    rw [if_congr e1 rfl rfl, if_congr e2 rfl rfl]
    ring
  · rw [relToi_flatMap, relToi_flatMap]
    congr 1
    apply List.map_congr_left
    intro p2 _
    by_cases hlt : p1.1 < p2.1
    · rw [if_pos hlt]
      rw [relToi_cons, relToi_cons, relToi_nil, relToi_cons, relToi_cons, relToi_nil]
      have e1 : (RelType.teammate = t ∧ gid = g ∧ p1.1 = b ∧ p2.1 = a) ↔
          (RelType.teammate = t ∧ gid = g ∧ p2.1 = a ∧ p1.1 = b) := by tauto
      have e2 : (RelType.teammate = t ∧ gid = g ∧ p2.1 = b ∧ p1.1 = a) ↔
          (RelType.teammate = t ∧ gid = g ∧ p1.1 = a ∧ p2.1 = b) := by tauto
      rw [if_congr e1 rfl rfl, if_congr e2 rfl rfl]
      ring
    · rw [if_neg hlt]
      rfl

theorem sliceMatchupRecords_relToi_symm (gid : Int) (sk : List GameShift) (home : String)
    (b1 b2 : Int × Int) (t : RelType) (g a b : Int) :
    relToi (sliceMatchupRecords gid sk home b1 b2) t g a b =
      relToi (sliceMatchupRecords gid sk home b1 b2) t g b a := by
  unfold sliceMatchupRecords
  dsimp only
  split_ifs with h1 h2
  · rfl
  · apply sliceMatchups_relToi_symm
  · rfl

theorem process_game_relToi_symm (gid : Int) (shifts : List GameShift)
    (t : RelType) (g a b : Int) :
    relToi (process_game_for_matchups gid shifts) t g a b =
      relToi (process_game_for_matchups gid shifts) t g b a := by
  unfold process_game_for_matchups
  dsimp only
  split_ifs with h1 h2
  · rfl
  · rfl
  · rw [relToi_flatMap, relToi_flatMap]
    congr 1
    apply List.map_congr_left
    intro bp _
    apply sliceMatchupRecords_relToi_symm

theorem sliceMatchups_mirror (gid dur : Int) (home_data away_data : List (Int × String))
    (r : MatchupRecord) (hr : r ∈ sliceMatchups gid dur home_data away_data) :
    ∃ rp ∈ sliceMatchups gid dur home_data away_data,
      rp.player_id = r.other_id ∧ rp.other_id = r.player_id ∧
      rp.duration = r.duration ∧ rp.type = r.type ∧ rp.game_id = r.game_id := by
  unfold sliceMatchups at hr ⊢
  rcases List.mem_flatMap.mp hr with ⟨p1, hp1, hblock⟩
  rcases List.mem_append.mp hblock with hop | htm
  · rcases List.mem_flatMap.mp hop with ⟨p2, hp2, hrec⟩
    simp only [List.mem_cons, List.mem_singleton, List.not_mem_nil, or_false] at hrec
    rcases hrec with rfl | rfl
    · refine ⟨⟨gid, p2.1, p2.2, p1.1, dur, RelType.opponent⟩, ?_, by simp⟩
      exact List.mem_flatMap.mpr ⟨p1, hp1, List.mem_append_left _
        (List.mem_flatMap.mpr ⟨p2, hp2, by simp⟩)⟩
    · refine ⟨⟨gid, p1.1, p1.2, p2.1, dur, RelType.opponent⟩, ?_, by simp⟩
      exact List.mem_flatMap.mpr ⟨p1, hp1, List.mem_append_left _
        (List.mem_flatMap.mpr ⟨p2, hp2, by simp⟩)⟩
  · rcases List.mem_flatMap.mp htm with ⟨p2, hp2, hrec⟩
    by_cases hlt : p1.1 < p2.1
    · rw [if_pos hlt] at hrec
      simp only [List.mem_cons, List.mem_singleton, List.not_mem_nil, or_false] at hrec
      rcases hrec with rfl | rfl
      · refine ⟨⟨gid, p2.1, p2.2, p1.1, dur, RelType.teammate⟩, ?_, by simp⟩
        refine List.mem_flatMap.mpr ⟨p1, hp1, List.mem_append_right _
          (List.mem_flatMap.mpr ⟨p2, hp2, ?_⟩)⟩
        rw [if_pos hlt]
        simp
      · refine ⟨⟨gid, p1.1, p1.2, p2.1, dur, RelType.teammate⟩, ?_, by simp⟩
        refine List.mem_flatMap.mpr ⟨p1, hp1, List.mem_append_right _
          (List.mem_flatMap.mpr ⟨p2, hp2, ?_⟩)⟩
        rw [if_pos hlt]
        simp
    · rw [if_neg hlt] at hrec
      simp at hrec

theorem sliceMatchupRecords_mirror (gid : Int) (sk : List GameShift) (home : String)
    (b1 b2 : Int × Int) (r : MatchupRecord)
    (hr : r ∈ sliceMatchupRecords gid sk home b1 b2) :
    ∃ rp ∈ sliceMatchupRecords gid sk home b1 b2,
      rp.player_id = r.other_id ∧ rp.other_id = r.player_id ∧
      rp.duration = r.duration ∧ rp.type = r.type ∧ rp.game_id = r.game_id := by
  unfold sliceMatchupRecords at hr ⊢
  dsimp only at hr ⊢
  split_ifs at hr ⊢ with h1 h2
  · simp at hr
  · exact sliceMatchups_mirror _ _ _ _ r hr
  · simp at hr

theorem process_game_mirror (gid : Int) (shifts : List GameShift) (r : MatchupRecord)
    (hr : r ∈ process_game_for_matchups gid shifts) :
    ∃ rp ∈ process_game_for_matchups gid shifts,
      rp.player_id = r.other_id ∧ rp.other_id = r.player_id ∧
      rp.duration = r.duration ∧ rp.type = r.type ∧ rp.game_id = r.game_id := by
  unfold process_game_for_matchups at hr ⊢
  dsimp only at hr ⊢
  split_ifs at hr ⊢ with h1 h2
  · simp at hr
  · simp at hr
  · rcases List.mem_flatMap.mp hr with ⟨bp, hbp, hrec⟩
    rcases sliceMatchupRecords_mirror _ _ _ _ _ r hrec with ⟨rp, hrp, hprops⟩
    exact ⟨rp, List.mem_flatMap.mpr ⟨bp, hbp, hrp⟩, hprops⟩

theorem sampleGame_matchups_eval :
    process_game_for_matchups 1 sampleGame =
      sliceMatchups 1 60 [(1, "H"), (2, "H"), (3, "H"), (4, "H"), (5, "H")]
        [(6, "A"), (7, "A"), (8, "A"), (9, "A"), (10, "A")] := by
  norm_num +decide [process_game_for_matchups, sliceMatchupRecords, onIceAtMid, skaterShifts,
    sampleGame, mkSkaterShift, sortedBoundaries, insertBoundary, consecutivePairs,
    homeTeamAbbrev, dedupKeepFirst, boundaryLt, List.flatMap]

/-- C7: pairwise aggregation is symmetric: for every relation, game and
pair of players, the shared time recorded under (A, B) equals the one
recorded under (B, A), and for every emitted record the record with the
two ids swapped is also materialized. -/
theorem C7_pairwise_symmetry (gid : Int) (shifts : List GameShift) :
    (∀ (t : RelType) (g a b : Int),
      relToi (process_game_for_matchups gid shifts) t g a b =
        relToi (process_game_for_matchups gid shifts) t g b a) ∧
    (∀ r ∈ process_game_for_matchups gid shifts,
      ∃ rp ∈ process_game_for_matchups gid shifts,
        rp.player_id = r.other_id ∧ rp.other_id = r.player_id ∧
        rp.duration = r.duration ∧ rp.type = r.type ∧ rp.game_id = r.game_id) := by
  constructor
  · intro t g a b
    exact process_game_relToi_symm gid shifts t g a b
  · intro r hr
    exact process_game_mirror gid shifts r hr

/-- C7 witness: in the sample game the opponent record (1, 6) has its
mirrored record (6, 1) materialized. -/
theorem C7_pairwise_symmetry_witness :
    ∃ rp ∈ process_game_for_matchups 1 sampleGame,
      rp.player_id = (6 : Int) ∧ rp.other_id = (1 : Int) ∧
      rp.duration = (60 : Int) ∧ rp.type = RelType.opponent ∧ rp.game_id = (1 : Int) :=
  (C7_pairwise_symmetry 1 sampleGame).2
    ⟨1, 1, "H", 6, 60, RelType.opponent⟩
    (by rw [sampleGame_matchups_eval]; decide)

/-- C1: on a qualifying 5v5 slice the pair loops emit opponent records
for all 25 cross-team pairs in both id orders, but teammate records only
for the 10 home-team pairs; away skaters (ids 6-10 here) receive no
teammate record at all, contradicting the claimed 10 teammate pairs per
team. -/
theorem C1_missing_away_teammate_pairs :
    (process_game_for_matchups 1 sampleGame).countP
      (fun r => r.type = RelType.opponent) = 50 ∧
    (process_game_for_matchups 1 sampleGame).countP
      (fun r => r.type = RelType.teammate) = 20 ∧
    (process_game_for_matchups 1 sampleGame).countP
      (fun r => r.type = RelType.teammate ∧ r.player_id = 1) = 4 ∧
    (process_game_for_matchups 1 sampleGame).countP
      (fun r => r.type = RelType.teammate ∧ r.player_id = 6) = 0 ∧
    (process_game_for_matchups 1 sampleGame).countP
      (fun r => r.type = RelType.opponent ∧ r.player_id = 6) = 5 := by
  rw [sampleGame_matchups_eval]
  decide

theorem changeOf_nil (p : Int) : changeOf [] p = 0 := rfl

theorem changeOf_cons (kv : Int × ℝ) (rest : List (Int × ℝ)) (p : Int) :
    changeOf (kv :: rest) p = (if kv.1 = p then kv.2 else 0) + changeOf rest p := by
  unfold changeOf
  rw [List.filter_cons]
  by_cases hk : kv.1 = p
  · simp [hk]
  · simp [hk]

theorem applyChanges_eq : ∀ (changes : List (Int × ℝ)) (ratings : Int → ℝ) (p : Int),
    applyChanges ratings changes p = ratings p + changeOf changes p := by
  intro changes
  induction changes with
  | nil => intro ratings p; simp [applyChanges, changeOf]
  | cons kv rest ih =>
    intro ratings p
    have hstep : applyChanges ratings (kv :: rest) p =
        applyChanges (fun q => if q = kv.1 then ratings q + kv.2 else ratings q) rest p := rfl
    rw [hstep, ih, changeOf_cons]
    by_cases hp : p = kv.1
    · rw [if_pos hp, if_pos hp.symm]
      ring
    · rw [if_neg hp, if_neg (fun h => hp h.symm)]
      ring

theorem changeOf_dictAdd : ∀ (changes : List (Int × ℝ)) (pid : Int) (d : ℝ) (p : Int),
    changeOf (dictAdd changes pid d) p = changeOf changes p + (if pid = p then d else 0) := by
  intro changes
  induction changes with
  | nil =>
    intro pid d p
    show changeOf [(pid, d)] p = changeOf [] p + (if pid = p then d else 0)
    rw [changeOf_cons]
    simp [changeOf_nil]
  | cons kv rest ih =>
    intro pid d p
    unfold dictAdd
    by_cases hk : kv.1 = pid
    · rw [if_pos hk, changeOf_cons, changeOf_cons]
      by_cases hp : kv.1 = p
      · rw [if_pos hp, if_pos hp, if_pos (hk ▸ hp)]
        ring
      · rw [if_neg hp, if_neg hp, if_neg (fun h => hp (hk.symm ▸ h))]
        ring
    · rw [if_neg hk, changeOf_cons, changeOf_cons, ih]
      ring

theorem gameDeltaSum_nil (R : Int → ℝ) (tm : List TeammateRow) (om : List OpponentRow)
    (ht : Option String) (p : Int) : gameDeltaSum R tm om ht [] p = 0 := rfl

theorem gameDeltaSum_cons (R : Int → ℝ) (tm : List TeammateRow) (om : List OpponentRow)
    (ht : Option String) (row : PlayerGameRow) (rest : List PlayerGameRow) (p : Int) :
    gameDeltaSum R tm om ht (row :: rest) p =
      (if row.player_id = p then
        (match playerDelta R tm om ht row with | none => 0 | some d => d) else 0) +
      gameDeltaSum R tm om ht rest p := by
  unfold gameDeltaSum
  rw [List.filter_cons]
  by_cases hp : row.player_id = p
  · rw [if_pos hp]
    simp only [decide_eq_true_eq, hp, if_pos]
    cases hpd : playerDelta R tm om ht row with
    | none => simp [List.filterMap_cons, hpd]
    | some d => simp [List.filterMap_cons, hpd]
  · simp [hp]

theorem changeOf_eloChanges_foldl (R : Int → ℝ) (tm : List TeammateRow)
    (om : List OpponentRow) (ht : Option String) :
    ∀ (rows : List PlayerGameRow) (changes : List (Int × ℝ)) (p : Int),
      changeOf (rows.foldl
        (fun changes row =>
          match playerDelta R tm om ht row with
          | none => changes
          | some d => dictAdd changes row.player_id d) changes) p =
        changeOf changes p + gameDeltaSum R tm om ht rows p := by
  intro rows
  induction rows with
  | nil => intro changes p; rw [gameDeltaSum_nil]; simp [List.foldl_nil]
  | cons row rest ih =>
    intro changes p
    rw [List.foldl_cons, ih, gameDeltaSum_cons]
    cases hpd : playerDelta R tm om ht row with
    | none =>
      simp only [hpd]
      by_cases hp : row.player_id = p <;> simp [hp]
    | some d =>
      simp only [hpd]
      rw [changeOf_dictAdd]
      by_cases hp : row.player_id = p <;> simp [hp] <;> ring

/-- C4: within one game every delta is computed from the pre-game rating
snapshot and the whole batch is committed afterwards: the post-game
rating of any player p is the pre-game rating plus the sum of the deltas
of p's rows, each a function of the pre-game mapping only. -/
theorem C4_batch_commit (R : Int → ℝ) (tm : List TeammateRow) (om : List OpponentRow)
    (gid : Int) (ht : Option String) (rows : List PlayerGameRow) (p : Int) :
    processGame R tm om gid ht rows p =
      R p + gameDeltaSum R (tm.filter (fun r => r.game_id = gid))
        (om.filter (fun r => r.game_id = gid)) ht rows p := by
  unfold processGame eloChanges
  rw [applyChanges_eq, changeOf_eloChanges_foldl]
  rw [changeOf_nil]
  ring

theorem playerDelta_none (R : Int → ℝ) (tm : List TeammateRow) (om : List OpponentRow)
    (ht : Option String) (row : PlayerGameRow)
    (h : (tm.filter (fun r => r.player_id = row.player_id)).isEmpty ∨
         (om.filter (fun r => r.player_id = row.player_id)).isEmpty ∨
         row.toi_5v5_mins ≤ 0) :
    playerDelta R tm om ht row = none := by
  unfold playerDelta
  rw [if_pos h]

/-- C10: a player whose per-game teammate rows or opponent rows are
empty, or whose 5v5 ice time is not positive, is skipped for the game
and their rating is left unchanged. -/
theorem C10_degenerate_skip (R : Int → ℝ) (tm : List TeammateRow) (om : List OpponentRow)
    (gid : Int) (ht : Option String) (rows : List PlayerGameRow) (p : Int)
    (h : ∀ row ∈ rows, row.player_id = p →
      ((tm.filter (fun r => r.game_id = gid)).filter
        (fun r => r.player_id = row.player_id)).isEmpty ∨
      ((om.filter (fun r => r.game_id = gid)).filter
        (fun r => r.player_id = row.player_id)).isEmpty ∨
      row.toi_5v5_mins ≤ 0) :
    processGame R tm om gid ht rows p = R p := by
  unfold processGame eloChanges
  rw [applyChanges_eq, changeOf_eloChanges_foldl, changeOf_nil]
  have hz : gameDeltaSum R (tm.filter (fun r => r.game_id = gid))
      (om.filter (fun r => r.game_id = gid)) ht rows p = 0 := by
    unfold gameDeltaSum
    have hnil : (rows.filter (fun row => row.player_id = p)).filterMap
        (playerDelta R (tm.filter (fun r => r.game_id = gid))
          (om.filter (fun r => r.game_id = gid)) ht) = [] := by
      apply List.filterMap_eq_nil_iff.mpr
      intro row hrow
      rcases List.mem_filter.mp hrow with ⟨hmem, hpp⟩
      rw [decide_eq_true_eq] at hpp
      exact playerDelta_none _ _ _ _ _ (h row hmem hpp)
    rw [hnil]
    rfl
  rw [hz]
  ring

/-- C10 witness: with empty matchup tables a zero-ice-time player keeps
the initial rating. -/
theorem C10_degenerate_skip_witness :
    processGame (fun _ => INITIAL_ELO) [] [] 7 none [sampleZeroToiRow] 1 = INITIAL_ELO :=
  C10_degenerate_skip (fun _ => INITIAL_ELO) [] [] 7 none [sampleZeroToiRow] 1
    (by intro row hrow hp; left; rfl)

/-- C8 counterexample: player 1 appears under two team codes, yet the
final summary holds no per-team row for them, only the combined TOT
row: the per-team rows are not present alongside the total row. -/
theorem C8_counterexample :
    sampleStats.countP (fun r => r.player_id = 1) = 2 ∧
    (∃ r ∈ sampleStats, r.player_id = 1 ∧ r.team = "A") ∧
    (∃ r ∈ sampleStats, r.player_id = 1 ∧ r.team = "B") ∧
    (finalSummaryStats sampleStats).countP (fun r => r.player_id = 1 ∧ r.team ≠ "TOT") = 0 ∧
    (finalSummaryStats sampleStats).countP (fun r => r.player_id = 1 ∧ r.team = "TOT") = 1 ∧
    (finalSummaryStats sampleStats).countP
      (fun r => r.player_id = 1 ∧ r.team = "TOT" ∧ r.games_played = 18) = 1 := by
  decide

/-- C8 witness: the amended claim instantiated on the sample table. -/
theorem C8_traded_total_row_witness :
    (finalSummaryStats sampleStats).filter (fun r => r.player_id = 1) =
      [{ player_id := 1, team := "TOT",
         games_played := ((sampleStats.filter (fun r => r.player_id = 1)).map
           (fun r => r.games_played)).sum,
         total_toi_mins := ((sampleStats.filter (fun r => r.player_id = 1)).map
           (fun r => r.total_toi_mins)).sum,
         season_xg_for := ((sampleStats.filter (fun r => r.player_id = 1)).map
           (fun r => r.season_xg_for)).sum,
         season_xg_against := ((sampleStats.filter (fun r => r.player_id = 1)).map
           (fun r => r.season_xg_against)).sum }] :=
  C8_traded_total_row sampleStats 1 (by decide)
